import Mathlib

/-!
A shallow embedding of the club-name canonicalization and transfer-graph
construction code of the soccer-networks repository (src/load.py and
graph_generator.py), together with proofs and refutations of stated
properties of that code.

Strings are modelled as Lean strings processed as lists of characters;
the Python operations str.replace, str.strip, str.lower, the regular
expression scan for under-age markers, and dictionary lookups are
reimplemented below with the same left-to-right, non-overlapping
semantics.  Transfer fees are modelled as rationals; a missing fee
(NaN in pandas) is Option.none.  NetworkX multigraphs are modelled as
lists of edges in insertion order, and simple digraphs as association
lists keyed by the ordered node pair.
-/

/-- Python str.lower over the (ASCII) club names: lowercase every character. -/
def lowerL (s : List Char) : List Char := s.map Char.toLower

/-- Whitespace test used by the model of Python str.strip. -/
def isSpaceCh (c : Char) : Bool := c == ' ' || c == '\t' || c == '\n' || c == '\r'

/-- Python str.strip: drop leading and trailing whitespace. -/
def stripL (s : List Char) : List Char :=
  ((s.dropWhile isSpaceCh).reverse.dropWhile isSpaceCh).reverse

/-- Does the pattern (first argument) occur at the head of the list? -/
def leadsWith : List Char → List Char → Bool
  | [], _ => true
  | _ :: _, [] => false
  | p :: ps, c :: cs => p == c && leadsWith ps cs

/-- Python substring test (pat in s). -/
def hasSub (p : List Char) : List Char → Bool
  | [] => leadsWith p []
  | c :: cs => leadsWith p (c :: cs) || hasSub p cs

/-- Python str.endswith. -/
def tailIs (s p : List Char) : Bool := leadsWith p.reverse s.reverse

/-- Fueled worker for the model of Python str.replace: scan left to right,
replace non-overlapping occurrences, never rescan replacement text.
The fuel always dominates the length of the remaining input. -/
def replF (p r : List Char) : Nat → List Char → List Char
  | 0, s => s
  | _ + 1, [] => []
  | n + 1, c :: cs =>
    if leadsWith p (c :: cs) && !p.isEmpty then
      r ++ replF p r n (List.drop p.length (c :: cs))
    else c :: replF p r n cs

/-- Python s.replace(p, r) for the non-empty patterns used by the source. -/
def replaceL (s p r : List Char) : List Char := replF p r s.length s

/-- Character class [1-9] of the under-age regular expression. -/
def isDigit19 (c : Char) : Bool := '1' ≤ c && c ≤ '9'

/-- Fueled worker for re.findall over the pattern [uU][1-9]+: leftmost,
non-overlapping, greedy matches. -/
def uMatchF : Nat → List Char → List (List Char)
  | 0, _ => []
  | _ + 1, [] => []
  | n + 1, c :: cs =>
    if c == 'u' || c == 'U' then
      let ds := cs.takeWhile isDigit19
      if ds.isEmpty then uMatchF n cs
      else (c :: ds) :: uMatchF n (cs.drop ds.length)
    else uMatchF n cs

/-- All matches of the under-age marker regular expression in a name. -/
def uAgeMatches (s : List Char) : List (List Char) := uMatchF s.length s

/-- The alias table club_name_mappings of src/load.py. -/
def club_name_mappings : List (String × String) := [
  ("leicester", "leicester city"),
  ("sheff", "sheffield"),
  ("west brom", "west bromwich albion"),
  ("wolves", "wolverhampton wanderers"),
  ("brighton", "brighton & hove albion"),
  ("norwich", "norwich city"),
  ("tottenham hotspurs", "tottenham"),
  ("tottenham hotspur", "tottenham"),
  ("spurs", "tottenham"),
  ("west ham", "west ham united"),
  ("wigan", "wigan athletic")]

/-- The name_exclusions list of src/load.py. -/
def name_exclusions : List String := ["afc ", " afc", " fc", "fc ", "club ", " club"]

/-- The united-spelling substrings handled by step 5 of src/load.py name_cleaner. -/
def united_subs : List String := ["united", "utd.", " utd"]

/-- The name_cleaner function of src/load.py, step by step:
lowercase and strip; expand every occurrence of the substring man-blank to
manchester-blank; delete every regular-expression match of an under-age
marker; drop a trailing blank-b suffix; for each united spelling present,
delete it everywhere and append a canonical united suffix; delete the
exclusion substrings; collapse double blanks once and strip; finally
substitute through the alias table. -/
def name_cleaner (name0 : String) : String :=
  let s1 := stripL (lowerL name0.toList)
  let s2 := replaceL s1 ("man ").toList ("manchester ").toList
  let s3 := (uAgeMatches s2).foldl (fun s m => replaceL s m []) s2
  let s4 := if tailIs s3 (" b").toList then s3.take (s3.length - 2) else s3
  let s5 := united_subs.foldl
    (fun s sub => if hasSub sub.toList s then replaceL s sub.toList [] ++ (" united").toList else s)
    s4
  let s6 := name_exclusions.foldl
    (fun s sub => if hasSub sub.toList s then replaceL s sub.toList [] else s) s5
  let s7 := stripL (replaceL s6 ("  ").toList (" ").toList)
  let n := String.mk s7
  match club_name_mappings.lookup n with
  | some v => v
  | none => n

/-- The alias table club_name_mappings of graph_generator.py. -/
def gg_club_name_mappings : List (String × String) := [
  ("man", "manchester"),
  ("man city", "manchester city"),
  ("leicester", "leicester city"),
  ("sheff", "sheffield"),
  ("west brom", "west bromwich albion"),
  ("wolves", "wolverhampton wanderers")]

/-- The name_exclusions list of graph_generator.py. -/
def gg_name_exclusions : List String :=
  ["united", "utd.", " utd", " fc", "fc ", "club ", " club"]

/-- The name_cleaner function of graph_generator.py: lowercase; delete
under-age matches; delete exclusion substrings (including every united
spelling, with no canonical suffix appended); strip; substitute through
its own alias table. -/
def gg_name_cleaner (name0 : String) : String :=
  let s1 := lowerL name0.toList
  let s2 := (uAgeMatches s1).foldl (fun s m => replaceL s m []) s1
  let s3 := gg_name_exclusions.foldl
    (fun s sub => if hasSub sub.toList s then replaceL s sub.toList [] else s) s2
  let s4 := stripL s3
  let n := String.mk s4
  match gg_club_name_mappings.lookup n with
  | some v => v
  | none => n

/-- One row of the transfer table, with the columns the builders read.
A missing numeric fee (NaN) is none; the FULL-variant columns are
optional so that a missing player, year or window can be represented. -/
structure Row where
  club_name : String
  club_involved_name : String
  transfer_movement : String
  fee_cleaned : Option ℚ
  player_name : Option String
  year : Option Int
  transfer_period : Option String
deriving DecidableEq

/-- The TransferNetwork namedtuple of src/util.py. -/
structure TransferNetwork where
  G : List (String × String)
  league_clubs : List String
deriving DecidableEq

/-- league_clubs of basic_transfer_network_from_df: the unique raw values of
the club_name column, each passed through name_cleaner. -/
def basicLeagueClubs (rs : List Row) : List String :=
  ((rs.map Row.club_name).dedup).map name_cleaner

/-- Loop body of basic_transfer_network_from_df: skip a row whose
counterpart club is a league club, otherwise add the directed edge given
by the movement column (player flow: an in-row adds counterpart to club,
an out-row adds club to counterpart). -/
def basicStep (league : List String) (G : List (String × String)) (r : Row) :
    List (String × String) :=
  let club := name_cleaner r.club_name
  let involved := name_cleaner r.club_involved_name
  if involved ∈ league then G
  else if r.transfer_movement = "in" then G ++ [(involved, club)]
  else if r.transfer_movement = "out" then G ++ [(club, involved)]
  else G

/-- basic_transfer_network_from_df of src/load.py. -/
def basic_transfer_network_from_df (rs : List Row) : TransferNetwork :=
  let league := basicLeagueClubs rs
  ⟨rs.foldl (basicStep league) [], league⟩

/-- An edge of the financial multigraph: source, target, fee attribute. -/
abbrev FinEdge := String × String × ℚ

/-- G.has_edge(u, v) on the financial multigraph. -/
def hasEdge (G : List FinEdge) (u v : String) : Bool :=
  G.any (fun e => decide (e.1 = u) && decide (e.2.1 = v))

/-- Is there an edge u to v carrying exactly this fee attribute? -/
def hasFeeEdge (G : List FinEdge) (u v : String) (f : ℚ) : Bool :=
  G.any (fun e => decide (e.1 = u) && decide (e.2.1 = v) && decide (e.2.2 = f))

/-- Python set add on the league_clubs accumulator. -/
def addClub (L : List String) (c : String) : List String :=
  if c ∈ L then L else L ++ [c]

/-- State of the row loop of financial_transfer_network_from_df. -/
structure FinState where
  G : List FinEdge
  L : List String
deriving DecidableEq

/-- Loop body of financial_transfer_network_from_df.  An out-row adds the
money-flow edge counterpart to club unless such an edge with the same fee
already exists (in which case the whole iteration, including the
league_clubs insertion, is skipped by continue); an in-row adds the edge
club to counterpart only when no such edge exists at all (the duplicate
fee test inside that branch is kept from the source although it can never
fire there); any other movement value adds no edge.  Except on continue,
the row's club is inserted into league_clubs. -/
def finStep (st : FinState) (r : Row) : FinState :=
  let u := name_cleaner r.club_name
  let v := name_cleaner r.club_involved_name
  let amount := r.fee_cleaned.getD 0
  if r.transfer_movement = "out" then
    if hasEdge st.G v u && hasFeeEdge st.G v u amount then ⟨st.G, st.L⟩
    else ⟨st.G ++ [(v, u, amount)], addClub st.L u⟩
  else if r.transfer_movement = "in" then
    if hasEdge st.G u v = false then
      if hasEdge st.G u v && hasFeeEdge st.G u v amount then ⟨st.G, st.L⟩
      else ⟨st.G ++ [(u, v, amount)], addClub st.L u⟩
    else ⟨st.G, addClub st.L u⟩
  else ⟨st.G, addClub st.L u⟩

/-- The FinancialTransferNetwork namedtuple of src/util.py (multigraph form). -/
structure FinancialTransferNetwork where
  G : List FinEdge
  league_clubs : List String
  currency : String
  denomination : ℚ
  edge_key : String
deriving DecidableEq

/-- financial_transfer_network_from_df of src/load.py. -/
def financial_transfer_network_from_df (rs : List Row) (currency : String)
    (denomination : ℚ) : FinancialTransferNetwork :=
  let st := rs.foldl finStep ⟨[], []⟩
  ⟨st.G, st.L, currency, denomination, "fee"⟩

/-- The ordered node pair of a financial multigraph edge. -/
def edgeKey (e : FinEdge) : String × String := (e.1, e.2.1)

/-- Update the fee of the (unique) entry with this key, or append a new
entry when the key is absent: the add-or-accumulate of the collapsing
loop of basic_financial_transfer_network_from_df on the simple digraph. -/
def addFee : List ((String × String) × ℚ) → (String × String) → ℚ →
    List ((String × String) × ℚ)
  | [], k, f => [(k, f)]
  | p :: rest, k, f =>
    if p.1 = k then (p.1, p.2 + f) :: rest else p :: addFee rest k f

/-- Loop body of the collapsing loop: if the simple digraph already has the
edge, accumulate the fee on it; otherwise create the edge. -/
def colStep (g : List ((String × String) × ℚ)) (e : FinEdge) :
    List ((String × String) × ℚ) :=
  if g.any (fun p => decide (p.1 = edgeKey e)) then addFee g (edgeKey e) e.2.2
  else g ++ [(edgeKey e, e.2.2)]

/-- Fold the financial multigraph into the fee-summed simple digraph. -/
def collapseEdges (es : List FinEdge) : List ((String × String) × ℚ) :=
  es.foldl colStep []

/-- The return value of basic_financial_transfer_network_from_df: the source
reuses the FinancialTransferNetwork namedtuple, but the graph is a simple
digraph, modelled as an association list keyed by the ordered node pair. -/
structure CollapsedFinancialNetwork where
  G : List ((String × String) × ℚ)
  league_clubs : List String
  currency : String
  denomination : ℚ
  edge_key : String
deriving DecidableEq

/-- basic_financial_transfer_network_from_df of src/load.py: build the
financial multigraph, then collapse its parallel edges by summing fees. -/
def basic_financial_transfer_network_from_df (rs : List Row) (currency : String)
    (denomination : ℚ) : CollapsedFinancialNetwork :=
  let ftn := financial_transfer_network_from_df rs currency denomination
  ⟨collapseEdges ftn.G, ftn.league_clubs, currency, denomination, "fee"⟩

/-- Fee of the simple-digraph edge with this key, if present. -/
def lookupFee : List ((String × String) × ℚ) → (String × String) → Option ℚ
  | [], _ => none
  | p :: rest, k => if p.1 = k then some p.2 else lookupFee rest k

/-- Sum of the fees of all multigraph edges with this ordered node pair. -/
def feeSum (es : List FinEdge) (k : String × String) : ℚ :=
  ((es.filter (fun e => decide (edgeKey e = k))).map (fun e => e.2.2)).sum

/-- An edge attribute value: the edge dictionaries of the FULL and aggregate
graphs are heterogeneous, so attributes are modelled as a tagged union
stored in an association list keyed by the attribute name. -/
inductive AttrVal
  | str (s : String)
  | num (q : ℚ)
  | int (n : Int)
deriving DecidableEq

/-- An edge of the FULL or aggregate multigraph: source, target, and the
attribute dictionary in keyword order. -/
abbrev FullEdge := String × String × List (String × AttrVal)

/-- Python str.lower on a player or window string. -/
def strLower (s : String) : String := String.mk (lowerL s.toList)

/-- The failure of a build call: an incomplete FULL-variant record (a
missing player, year or window raises when the row is read), or a missing
edge-attribute key (a dictionary lookup raises inside the aggregate copy
loop). -/
inductive BuildError
  | incompleteRecord
  | keyError
deriving DecidableEq

/-- The attribute dictionary written by G.add_edge in
load_full_network_from_df, in keyword order. -/
def mkAttrs (amount : ℚ) (y : Int) (w p : String) : List (String × AttrVal) :=
  [("fee", AttrVal.num amount), ("year", AttrVal.int y),
   ("transfer_period", AttrVal.str w), ("player", AttrVal.str p)]

/-- Is there an edge u to v whose player attribute equals this player? -/
def hasPlayerEdge (G : List FullEdge) (u v : String) (p : String) : Bool :=
  G.any (fun e => decide (e.1 = u) && decide (e.2.1 = v)
    && decide (List.lookup ("player") e.2.2 = some (AttrVal.str p)))

/-- State of the row loop of load_full_network_from_df. -/
structure FullState where
  G : List FullEdge
  L : List String
deriving DecidableEq

/-- Loop body of load_full_network_from_df.  The row's player, year and
window are read before any branch, so a missing value fails the whole
call.  An in-row adds the player-flow edge counterpart to club and an
out-row the edge club to counterpart, each unless an edge with the same
endpoints and the same lowercased player already exists (continue, which
also skips the league_clubs insertion). -/
def fullStep (st : FullState) (r : Row) : Except BuildError FullState :=
  let u := name_cleaner r.club_name
  let v := name_cleaner r.club_involved_name
  let amount := r.fee_cleaned.getD 0
  match r.player_name, r.year, r.transfer_period with
  | some p0, some y, some w0 =>
    let p := strLower p0
    let w := strLower w0
    if r.transfer_movement = "in" then
      if hasPlayerEdge st.G v u p then .ok ⟨st.G, st.L⟩
      else .ok ⟨st.G ++ [(v, u, mkAttrs amount y w p)], addClub st.L u⟩
    else if r.transfer_movement = "out" then
      if hasPlayerEdge st.G u v p then .ok ⟨st.G, st.L⟩
      else .ok ⟨st.G ++ [(u, v, mkAttrs amount y w p)], addClub st.L u⟩
    else .ok ⟨st.G, addClub st.L u⟩
  | _, _, _ => .error BuildError.incompleteRecord

/-- Run the FULL-variant row loop; the first failing row aborts the call. -/
def runFull (st : FullState) : List Row → Except BuildError FullState
  | [] => .ok st
  | r :: rs =>
    match fullStep st r with
    | .ok st' => runFull st' rs
    | .error e => .error e

/-- The FullTransferNetwork namedtuple of src/util.py. -/
structure FullTransferNetwork where
  G : List FullEdge
  league_clubs : List String
  currency : String
  denomination : ℚ
  player_key : String
  fee_key : String
  year_key : String
  window_key : String
deriving DecidableEq

/-- load_full_network_from_df of src/load.py. -/
def load_full_network_from_df (rs : List Row) (currency : String)
    (denomination : ℚ) : Except BuildError FullTransferNetwork :=
  match runFull ⟨[], []⟩ rs with
  | .ok st => .ok ⟨st.G, st.L, currency, denomination, "player", "fee", "year", "transfer_period"⟩
  | .error e => .error e

/-- The movement-determined ordered node pair a FULL-variant row produces:
in-rows point counterpart to club, out-rows club to counterpart, any other
movement produces no edge. -/
def edgeTarget (r : Row) : Option (String × String) :=
  if r.transfer_movement = "in" then
    some (name_cleaner r.club_involved_name, name_cleaner r.club_name)
  else if r.transfer_movement = "out" then
    some (name_cleaner r.club_name, name_cleaner r.club_involved_name)
  else none

/-- The AggregateFullTransferNetwork namedtuple of src/util.py.  The key
fields start as Python None and are set from the first season processed,
so they are optional here. -/
structure AggregateFullTransferNetwork where
  G : List FullEdge
  league_clubs : List String
  currency : String
  denomination : Option ℚ
  player_key : Option String
  fee_key : Option String
  year_key : Option String
  window_key : Option String
  start_year : Int
  end_year : Int
deriving DecidableEq

/-- Accumulator of the season loop of load_full_aggregate_network. -/
structure AggState where
  G : List FullEdge
  clubs : List String
  player_key : Option String
  fee_key : Option String
  year_key : Option String
  window_key : Option String
  denomination : Option ℚ
deriving DecidableEq

/-- The edge-copy loop of load_full_aggregate_network: read each season
edge's attributes through the remembered key names and write them into the
aggregate graph under the keyword names player, fee, year and
transfer_window (sic: not the remembered window key).  A missing key would
raise in Python, modelled as a keyError failure. -/
def copyEdges (pk fk yk wk : String) : List FullEdge → Except BuildError (List FullEdge)
  | [] => .ok []
  | e :: es =>
    match List.lookup pk e.2.2, List.lookup fk e.2.2,
        List.lookup yk e.2.2, List.lookup wk e.2.2 with
    | some p, some f, some y, some w =>
      match copyEdges pk fk yk wk es with
      | .ok rest =>
        .ok ((e.1, e.2.1,
          [("player", p), ("fee", f), ("year", y), ("transfer_window", w)]) :: rest)
      | .error err => .error err
    | _, _, _, _ => .error BuildError.keyError

/-- One iteration of the season loop: build the season's FULL network from
its rows (the external per-year table), remember the attribute-key names
and denomination when this is the first season, copy the season's edges
into the aggregate graph and append its league clubs. -/
def aggStep (st : AggState) (season : Int × List Row) : Except BuildError AggState :=
  match load_full_network_from_df season.2 ("pounds") 1000000 with
  | .error e => .error e
  | .ok net =>
    let st1 : AggState :=
      if st.player_key = none then
        ⟨st.G, st.clubs, some net.player_key, some net.fee_key, some net.year_key,
          some net.window_key, some net.denomination⟩
      else st
    match st1.player_key, st1.fee_key, st1.year_key, st1.window_key with
    | some pk, some fk, some yk, some wk =>
      match copyEdges pk fk yk wk net.G with
      | .ok newEdges =>
        .ok ⟨st1.G ++ newEdges, st1.clubs ++ net.league_clubs, st1.player_key,
          st1.fee_key, st1.year_key, st1.window_key, st1.denomination⟩
      | .error e => .error e
    | _, _, _, _ => .error BuildError.keyError

/-- Run the season loop in order. -/
def aggRun (st : AggState) : List (Int × List Row) → Except BuildError AggState
  | [] => .ok st
  | s :: rest =>
    match aggStep st s with
    | .ok st' => aggRun st' rest
    | .error e => .error e

/-- load_full_aggregate_network of src/load.py.  The year range selects the
per-year tables in Python; here each season is supplied as a pair of its
year and its rows, in increasing year order. -/
def load_full_aggregate_network (start_year end_year : Int)
    (seasons : List (Int × List Row)) :
    Except BuildError AggregateFullTransferNetwork :=
  match aggRun ⟨[], [], none, none, none, none, none⟩ seasons with
  | .ok st =>
    .ok ⟨st.G, st.clubs.dedup, "pounds", st.denomination, st.player_key, st.fee_key,
      st.year_key, st.window_key, start_year, end_year⟩
  | .error e => .error e

/-- The spec's two-sided transaction example: the same Chelsea-to-Man-City
transfer reported once from each club's side. -/
def sampleDupRows : List Row := [
  ⟨"Man City", "Chelsea FC", "in", some 50, none, none, none⟩,
  ⟨"Chelsea FC", "Man City", "out", some 50, none, none, none⟩]

/-- Two in-rows for the same pair of clubs with different fees. -/
def sampleInInRows : List Row := [
  ⟨"alpha", "gamma", "in", some 10, none, none, none⟩,
  ⟨"alpha", "gamma", "in", some 20, none, none, none⟩]

/-- Two rows whose counterpart clubs are both league clubs. -/
def sampleLeagueRows : List Row := [
  ⟨"alpha", "beta", "in", none, none, none, none⟩,
  ⟨"beta", "alpha", "out", none, none, none, none⟩]

/-- One complete FULL-variant row. -/
def sampleFullRow : Row :=
  ⟨"alpha", "gamma", "out", some 5, some "John Doe", some 2000, some "Summer"⟩

/-- Two complete FULL-variant rows for the same pair of clubs and the same
fee, differing only in the player name. -/
def samplePlayerRow1 : Row :=
  ⟨"alpha", "gamma", "out", some 5, some "John", some 2000, some "Summer"⟩

/-- Second of the pair, with a different player. -/
def samplePlayerRow2 : Row :=
  ⟨"alpha", "gamma", "out", some 5, some "Jane", some 2000, some "Summer"⟩

/-- A FULL-variant row whose player is missing. -/
def sampleIncompleteRow : Row :=
  ⟨"alpha", "gamma", "out", some 5, none, some 2000, some "Summer"⟩

/-- The names of the alias table (keys and values) together with the
concrete example names of the specification. -/
def aliasAndExampleNames : List String :=
  (club_name_mappings.map Prod.fst) ++ (club_name_mappings.map Prod.snd) ++
  ["Man City", "Chelsea FC", "Manchester United", "Man Utd",
   "Tottenham Hotspur", "Tottenham Hotspurs", "Spurs", "Arsenal U21"]

/-- C1, counterexample.  On the spec's two-sided example the FINANCIAL
builder does produce exactly one edge with fee 50, but it is directed
manchester city to chelsea (the buying club pays the selling club), not
chelsea to manchester city as the claim states: there is no edge from
chelsea to manchester city at all. -/
theorem c1_counterexample :
    (financial_transfer_network_from_df sampleDupRows ("dollars") 1000000).G.length = 1
    ∧ hasEdge (financial_transfer_network_from_df sampleDupRows ("dollars") 1000000).G
        ("chelsea") ("manchester city") = false := by decide

/-- C1, amended.  The canonicalizer maps the raw names to manchester city
and chelsea, and the FINANCIAL builder produces exactly one edge with fee
50 — directed manchester city to chelsea, since FINANCIAL edges follow the
money from the buying club to the selling club. -/
theorem c1_amended_thm :
    name_cleaner ("Man City") = "manchester city"
    ∧ name_cleaner ("Chelsea FC") = "chelsea"
    ∧ (financial_transfer_network_from_df sampleDupRows ("dollars") 1000000).G
        = [("manchester city", "chelsea", (50 : ℚ))] := by decide

/-- C2, counterexample.  Two in-rows for the same pair with different fees
(10 then 20): an edge alpha to gamma exists when the second row is
processed and every fee on it differs from 20, yet no parallel edge is
added — the final graph still has the single fee-10 edge, refuting the
claim that such a record yields a new parallel edge. -/
theorem c2_counterexample :
    (financial_transfer_network_from_df sampleInInRows ("dollars") 1000000).G
      = [("alpha", "gamma", (10 : ℚ))] := by decide

/-- C3, counterexample.  Two records between two league clubs: the BASIC
builder skips both (their counterpart clubs are league members), so the
graph has 0 edges while there are 2 input records. -/
theorem c3_counterexample :
    (basic_transfer_network_from_df sampleLeagueRows).G.length = 0
    ∧ sampleLeagueRows.length = 2 := by decide

/-- C4.  Evaluating the aggregate fold on one season with one complete row:
the resulting network stores window_key transfer_period, but the edge's
attribute dictionary has no entry under that key — the window was written
under the key transfer_window instead — so reading the window through the
advertised window_key fails, contradicting the key fields' documented
purpose in src/util.py.  Player, fee and year are retrievable through
their stored keys. -/
theorem c4_bug_thm :
    ((load_full_aggregate_network 2000 2000 [(2000, [sampleFullRow])]).toOption.map
        (fun net => net.window_key) = some (some ("transfer_period")))
    ∧ ((load_full_aggregate_network 2000 2000 [(2000, [sampleFullRow])]).toOption.map
        (fun net => net.G.map (fun e => List.lookup ("transfer_period") e.2.2))
        = some [none])
    ∧ ((load_full_aggregate_network 2000 2000 [(2000, [sampleFullRow])]).toOption.map
        (fun net => net.G.map (fun e => List.lookup ("transfer_window") e.2.2))
        = some [some (AttrVal.str ("summer"))])
    ∧ ((load_full_aggregate_network 2000 2000 [(2000, [sampleFullRow])]).toOption.map
        (fun net => net.player_key.map (fun k => net.G.map (fun e => List.lookup k e.2.2)))
        = some (some [some (AttrVal.str ("john doe"))]))
    ∧ ((load_full_aggregate_network 2000 2000 [(2000, [sampleFullRow])]).toOption.map
        (fun net => net.fee_key.map (fun k => net.G.map (fun e => List.lookup k e.2.2)))
        = some (some [some (AttrVal.num 5)]))
    ∧ ((load_full_aggregate_network 2000 2000 [(2000, [sampleFullRow])]).toOption.map
        (fun net => net.year_key.map (fun k => net.G.map (fun e => List.lookup k e.2.2)))
        = some (some [some (AttrVal.int 2000)])) := by
  refine ⟨by decide, by decide, by decide, by decide, by decide, by decide⟩

/-- C5, counterexample.  On the two-sided example, the out-row owned by
Chelsea is suppressed as a duplicate and the continue also skips the
league_clubs insertion: chelsea appears as a row-owning club yet is
missing from league_clubs of the FINANCIAL network. -/
theorem c5_counterexample :
    name_cleaner (Row.club_name ⟨"Chelsea FC", "Man City", "out", some 50, none, none, none⟩)
      = "chelsea"
    ∧ ((("chelsea" : String) ∈
        (financial_transfer_network_from_df sampleDupRows ("dollars") 1000000).league_clubs)
        = False) := by
  constructor
  · decide
  · simp only [eq_iff_iff, iff_false]
    decide

/-- C6, counterexample.  Canonicalization is not idempotent: one pass over
the name x-blank-b-blank-b removes a single trailing blank-b, so a second
pass removes another one and the result changes. -/
theorem c6_counterexample :
    name_cleaner (name_cleaner ("x b b")) ≠ name_cleaner ("x b b") := by decide

/-- C6, amended.  Canonicalization is idempotent on every club name of the
alias table (keys and values) and on the concrete example names of the
specification, though not on arbitrary strings. -/
theorem c6_amended_thm :
    (aliasAndExampleNames.all
      (fun x => name_cleaner (name_cleaner x) == name_cleaner x)) = true := by decide

/-- C10, counterexample.  The two canonicalizers disagree on the name
Manchester United: the one in src/load.py appends the canonical united
suffix after deleting the united substring, while the one in
graph_generator.py only deletes it. -/
theorem c10_counterexample :
    gg_name_cleaner ("Manchester United") ≠ name_cleaner ("Manchester United") := by decide

/-- C10, amended.  The two canonicalizers agree on some inputs — on Man
City both return manchester city — but they do not compute the same
function: on Manchester United the graph_generator version returns
manchester while the src/load version returns manchester united. -/
theorem c10_amended_thm :
    gg_name_cleaner ("Man City") = "manchester city"
    ∧ name_cleaner ("Man City") = "manchester city"
    ∧ gg_name_cleaner ("Manchester United") = "manchester"
    ∧ name_cleaner ("Manchester United") = "manchester united" := by decide

/-- The rows that contribute an edge in the BASIC builder: movement is in
or out and the counterpart's canonical name is not a league club. -/
def basicCounts (league : List String) (r : Row) : Bool :=
  (decide (r.transfer_movement = "in") || decide (r.transfer_movement = "out"))
  && !(decide (name_cleaner r.club_involved_name ∈ league))

/-- Each iteration of the BASIC loop grows the edge list by one exactly
when the row counts, so the fold's length is the initial length plus the
number of counting rows. -/
theorem basicFold_length (league : List String) (rs : List Row) :
    ∀ G0 : List (String × String),
      (rs.foldl (basicStep league) G0).length = G0.length + rs.countP (basicCounts league) := by
  induction rs with
  | nil => intro G0; simp
  | cons r rs ih =>
    intro G0
    rw [List.foldl_cons, ih, List.countP_cons]
    have hstep : (basicStep league G0 r).length
        = G0.length + (if basicCounts league r then 1 else 0) := by
      unfold basicStep basicCounts
      split_ifs with h1 h2 h3 <;> simp_all
    rw [hstep]
    by_cases hc : basicCounts league r = true
    · simp only [hc, if_true]
      omega
    · simp only [hc, if_false]
      omega

/-- C3, amended.  In the BASIC builder of src/load.py the edge count equals
the number of input records whose movement is in or out and whose
counterpart club does not canonicalize to a league club; records between
two league clubs are skipped, so the edge count can be smaller than the
record count (and is never larger). -/
theorem c3_amended_thm (rs : List Row) :
    (basic_transfer_network_from_df rs).G.length
      = rs.countP (basicCounts (basicLeagueClubs rs)) := by
  unfold basic_transfer_network_from_df
  rw [basicFold_length]
  simp

/-- A same-fee edge is in particular an edge. -/
theorem hasEdge_of_hasFeeEdge (G : List FinEdge) (u v : String) (f : ℚ)
    (h : hasFeeEdge G u v f = true) : hasEdge G u v = true := by
  simp only [hasFeeEdge, hasEdge, List.any_eq_true, Bool.and_eq_true,
    decide_eq_true_eq] at h ⊢
  obtain ⟨e, he, ⟨h1, h2⟩, h3⟩ := h
  exact ⟨e, he, h1, h2⟩

/-- Appending an edge changes the edge list. -/
theorem append_edge_ne (G : List FinEdge) (e : FinEdge) : G ++ [e] ≠ G := by
  intro h
  have := congrArg List.length h
  simp at this

/-- C2, amended.  In the FINANCIAL builder the duplicate test is
asymmetric.  An out-row is skipped exactly when an edge with the same
endpoints and the same fee already exists, and otherwise appends a new
(possibly parallel) edge.  An in-row is skipped exactly when an edge with
the same endpoints exists at all, whatever its fees, so an in-row never
adds a parallel edge. -/
theorem c2_amended_thm (st : FinState) (r : Row) :
    (r.transfer_movement = "out" →
      ((((finStep st r).G = st.G) ↔
        hasFeeEdge st.G (name_cleaner r.club_involved_name) (name_cleaner r.club_name)
          (r.fee_cleaned.getD 0) = true)
      ∧ (hasFeeEdge st.G (name_cleaner r.club_involved_name) (name_cleaner r.club_name)
            (r.fee_cleaned.getD 0) = false →
          (finStep st r).G = st.G ++ [(name_cleaner r.club_involved_name,
            name_cleaner r.club_name, r.fee_cleaned.getD 0)])))
    ∧ (r.transfer_movement = "in" →
      (((finStep st r).G = st.G) ↔
        hasEdge st.G (name_cleaner r.club_name) (name_cleaner r.club_involved_name) = true)) := by
  constructor
  · intro hout
    cases hf : hasFeeEdge st.G (name_cleaner r.club_involved_name)
        (name_cleaner r.club_name) (r.fee_cleaned.getD 0) with
    | true =>
      have he := hasEdge_of_hasFeeEdge _ _ _ _ hf
      constructor
      · simp [finStep, hout, hf, he]
      · intro hcontra; simp at hcontra
    | false =>
      have hstep : (finStep st r).G = st.G ++ [(name_cleaner r.club_involved_name,
          name_cleaner r.club_name, r.fee_cleaned.getD 0)] := by
        simp [finStep, hout, hf]
      refine ⟨?_, fun _ => hstep⟩
      rw [hstep]
      simp only [Bool.false_eq_true, iff_false]
      exact append_edge_ne _ _
  · intro hin
    have hout' : r.transfer_movement ≠ "out" := by
      rw [hin]; decide
    cases he : hasEdge st.G (name_cleaner r.club_name) (name_cleaner r.club_involved_name) with
    | true => simp [finStep, hout', hin, he]
    | false =>
      have hstep : (finStep st r).G = st.G ++ [(name_cleaner r.club_name,
          name_cleaner r.club_involved_name, r.fee_cleaned.getD 0)] := by
        simp [finStep, hout', hin, he]
      rw [hstep]
      simp only [Bool.false_eq_true, iff_false]
      exact append_edge_ne _ _

/-- A concrete state with one fee-10 edge from alpha to gamma. -/
def sampleFinState : FinState := ⟨[("alpha", "gamma", 10)], ["gamma"]⟩

/-- An out-row reporting a fee-20 transfer whose money-flow edge is alpha
to gamma. -/
def sampleOutRow : Row := ⟨"gamma", "alpha", "out", some 20, none, none, none⟩

/-- Witness for the amended C2: at a state holding one alpha-to-gamma edge
with fee 10, an out-row with fee 20 for the same pair is not skipped and
appends a parallel edge, because no existing fee equals 20. -/
theorem c2_amended_witness :
    (((finStep sampleFinState sampleOutRow).G = sampleFinState.G) ↔
      hasFeeEdge sampleFinState.G (name_cleaner (Row.club_involved_name sampleOutRow))
        (name_cleaner (Row.club_name sampleOutRow))
        ((Row.fee_cleaned sampleOutRow).getD 0) = true)
    ∧ (finStep sampleFinState sampleOutRow).G
        = sampleFinState.G ++ [(name_cleaner (Row.club_involved_name sampleOutRow),
            name_cleaner (Row.club_name sampleOutRow),
            (Row.fee_cleaned sampleOutRow).getD 0)] :=
  ⟨((c2_amended_thm sampleFinState sampleOutRow).1 (by decide)).1,
   ((c2_amended_thm sampleFinState sampleOutRow).1 (by decide)).2 (by decide)⟩

/-- Membership after a set insertion. -/
theorem mem_addClub (L : List String) (x c : String) :
    c ∈ addClub L x ↔ c ∈ L ∨ c = x := by
  unfold addClub
  split_ifs with h
  · constructor
    · exact fun hc => Or.inl hc
    · rintro (hc | rfl)
      · exact hc
      · exact h
  · simp [List.mem_append]

/-- One financial iteration can only add the row's own canonical club to
league_clubs. -/
theorem finStep_L_sub (st : FinState) (r : Row) (c : String)
    (h : c ∈ (finStep st r).L) : c ∈ st.L ∨ c = name_cleaner r.club_name := by
  simp only [finStep] at h
  split_ifs at h <;>
    first
      | exact Or.inl h
      | exact (mem_addClub _ _ _).mp h

/-- Every club in league_clubs of the financial fold was already present or
is the canonical club_name of some processed row. -/
theorem finFold_league_sub (rs : List Row) :
    ∀ (st : FinState) (c : String), c ∈ (rs.foldl finStep st).L →
      c ∈ st.L ∨ ∃ r ∈ rs, name_cleaner r.club_name = c := by
  induction rs with
  | nil => intro st c h; exact Or.inl h
  | cons r rs ih =>
    intro st c h
    rw [List.foldl_cons] at h
    rcases ih (finStep st r) c h with h' | h'
    · rcases finStep_L_sub st r c h' with h'' | h''
      · exact Or.inl h''
      · exact Or.inr ⟨r, List.mem_cons_self r rs, h''.symm⟩
    · obtain ⟨r', hr', hc⟩ := h'
      exact Or.inr ⟨r', List.mem_cons_of_mem r hr', hc⟩

/-- C5, amended.  For the BASIC builder league_clubs holds exactly the
canonicalized clubs appearing in the club_name column.  For the FINANCIAL
builder (and likewise the FULL builder) league_clubs only ever holds such
clubs, but it can miss some: a row suppressed by the duplicate continue
also skips the league_clubs insertion, so a club all of whose rows are
suppressed is absent. -/
theorem c5_amended_thm :
    (∀ (rs : List Row) (c : String),
      c ∈ (basic_transfer_network_from_df rs).league_clubs
        ↔ ∃ r ∈ rs, name_cleaner r.club_name = c)
    ∧ (∀ (rs : List Row) (currency : String) (denomination : ℚ) (c : String),
      c ∈ (financial_transfer_network_from_df rs currency denomination).league_clubs
        → ∃ r ∈ rs, name_cleaner r.club_name = c) := by
  constructor
  · intro rs c
    unfold basic_transfer_network_from_df basicLeagueClubs
    simp only [List.mem_map, List.mem_dedup]
    constructor
    · rintro ⟨a, ⟨r, hr, rfl⟩, rfl⟩
      exact ⟨r, hr, rfl⟩
    · rintro ⟨r, hr, rfl⟩
      exact ⟨r.club_name, ⟨r, hr, rfl⟩, rfl⟩
  · intro rs currency denomination c h
    unfold financial_transfer_network_from_df at h
    rcases finFold_league_sub rs ⟨[], []⟩ c h with h' | h'
    · cases h'
    · exact h'

/-- Witness for the amended C5: on the two-sided example, manchester city
is in league_clubs of both builders and so originates from some row's
club_name column. -/
theorem c5_amended_witness :
    (("manchester city" : String) ∈ (basic_transfer_network_from_df sampleDupRows).league_clubs)
    ∧ (∃ r ∈ sampleDupRows, name_cleaner r.club_name = "manchester city") :=
  ⟨(c5_amended_thm.1 sampleDupRows ("manchester city")).mpr (by decide),
   c5_amended_thm.2 sampleDupRows ("dollars") 1000000 ("manchester city") (by decide)⟩

/-- A FULL-variant row missing player, year or window data. -/
def incompleteRow (r : Row) : Prop :=
  r.player_name = none ∨ r.year = none ∨ r.transfer_period = none

instance (r : Row) : Decidable (incompleteRow r) := by
  unfold incompleteRow
  infer_instance

/-- Reading an incomplete row fails the iteration with the incomplete
record failure. -/
theorem fullStep_incomplete (st : FullState) (r : Row) (h : incompleteRow r) :
    fullStep st r = .error BuildError.incompleteRecord := by
  unfold incompleteRow at h
  cases hp : r.player_name <;> cases hy : r.year <;> cases hw : r.transfer_period <;>
    simp_all [fullStep]

/-- A complete row never fails its iteration. -/
theorem fullStep_complete (st : FullState) (r : Row) (h : ¬ incompleteRow r) :
    ∃ st', fullStep st r = .ok st' := by
  unfold incompleteRow at h
  push_neg at h
  obtain ⟨hp, hy, hw⟩ := h
  cases hp' : r.player_name with
  | none => exact absurd hp' hp
  | some p =>
    cases hy' : r.year with
    | none => exact absurd hy' hy
    | some y =>
      cases hw' : r.transfer_period with
      | none => exact absurd hw' hw
      | some w =>
        simp only [fullStep, hp', hy', hw']
        split_ifs <;> exact ⟨_, rfl⟩

/-- If any row of the list is incomplete, the whole FULL row loop fails
with the incomplete record failure. -/
theorem runFull_incomplete (rs : List Row) :
    ∀ st : FullState, (∃ r ∈ rs, incompleteRow r) →
      runFull st rs = .error BuildError.incompleteRecord := by
  induction rs with
  | nil => intro st h; simp at h
  | cons r rs ih =>
    intro st h
    by_cases hr : incompleteRow r
    · simp [runFull, fullStep_incomplete st r hr]
    · obtain ⟨r0, hr0, h0⟩ := h
      have hr0' : r0 ∈ rs := by
        rcases List.mem_cons.mp hr0 with rfl | hmem
        · exact absurd h0 hr
        · exact hmem
      obtain ⟨st', hst'⟩ := fullStep_complete st r hr
      simp [runFull, hst', ih st' ⟨r0, hr0', h0⟩]

/-- C9.  A FULL-variant record missing player, year or window data fails
the whole build call with the distinct incomplete record failure (the
field is read before any branch of the loop body, so the record is never
silently skipped), and consequently no network — and in particular no
sentinel-valued edge — is produced. -/
theorem c9_thm (rs : List Row) (currency : String) (denomination : ℚ)
    (h : ∃ r ∈ rs, incompleteRow r) :
    load_full_network_from_df rs currency denomination
      = .error BuildError.incompleteRecord := by
  unfold load_full_network_from_df
  rw [runFull_incomplete rs ⟨[], []⟩ h]

/-- Witness for C9: a single row with a missing player fails the build. -/
theorem c9_witness :
    load_full_network_from_df [sampleIncompleteRow] ("pounds") 1000000
      = .error BuildError.incompleteRecord :=
  c9_thm [sampleIncompleteRow] ("pounds") 1000000 (by decide)

/-- When a complete row's target pair is known and no edge with that pair
and that lowercased player exists yet, the FULL loop body appends exactly
that edge and registers the row's club. -/
theorem fullStep_adds (st : FullState) (r : Row) (u v p : String) (y : Int) (w : String)
    (hp : r.player_name = some p) (hy : r.year = some y) (hw : r.transfer_period = some w)
    (ht : edgeTarget r = some (u, v))
    (hdup : hasPlayerEdge st.G u v (strLower p) = false) :
    fullStep st r = .ok ⟨st.G ++ [(u, v, mkAttrs (r.fee_cleaned.getD 0) y (strLower w) (strLower p))],
      addClub st.L (name_cleaner r.club_name)⟩ := by
  unfold edgeTarget at ht
  unfold fullStep
  rw [hp, hy, hw]
  by_cases hin : r.transfer_movement = "in"
  · rw [if_pos hin] at ht
    obtain ⟨hu, hv⟩ := Prod.mk.inj (Option.some.inj ht)
    dsimp only
    rw [if_pos hin, hu, hv, hdup, if_neg (by decide : ¬ (false = true))]
  · rw [if_neg hin] at ht
    by_cases hout : r.transfer_movement = "out"
    · rw [if_pos hout] at ht
      obtain ⟨hu, hv⟩ := Prod.mk.inj (Option.some.inj ht)
      dsimp only
      rw [if_neg hin, if_pos hout, hu, hv, hdup, if_neg (by decide : ¬ (false = true))]
    · rw [if_neg hout] at ht
      exact absurd ht (by simp)

/-- A successful iteration lets the row loop continue from the new state. -/
theorem runFull_cons_ok (st st' : FullState) (r : Row) (rs : List Row)
    (h : fullStep st r = .ok st') : runFull st (r :: rs) = runFull st' rs := by
  simp [runFull, h]

/-- A successful row loop yields the FULL network with its key names. -/
theorem load_full_of_runFull (rs : List Row) (currency : String) (denomination : ℚ)
    (st : FullState) (h : runFull ⟨[], []⟩ rs = .ok st) :
    load_full_network_from_df rs currency denomination
      = .ok ⟨st.G, st.L, currency, denomination, "player", "fee", "year", "transfer_period"⟩ := by
  unfold load_full_network_from_df
  rw [h]

/-- C7.  Two complete FULL-variant records producing the same ordered pair
of canonicalized clubs but different lowercased player names both produce
edges — two distinct parallel edges — even when their fees (and all other
fields) agree: the duplicate suppression of the FULL variant keys on the
player name only. -/
theorem c7_thm (r1 r2 : Row) (u v p1 p2 : String) (y1 y2 : Int) (w1 w2 : String)
    (currency : String) (denomination : ℚ)
    (hp1 : r1.player_name = some p1) (hy1 : r1.year = some y1)
    (hw1 : r1.transfer_period = some w1)
    (hp2 : r2.player_name = some p2) (hy2 : r2.year = some y2)
    (hw2 : r2.transfer_period = some w2)
    (ht1 : edgeTarget r1 = some (u, v)) (ht2 : edgeTarget r2 = some (u, v))
    (hne : strLower p1 ≠ strLower p2) :
    ∃ net, load_full_network_from_df [r1, r2] currency denomination = .ok net
      ∧ net.G.length = 2
      ∧ net.G.countP (fun e => decide (e.1 = u) && decide (e.2.1 = v)) = 2 := by
  have h1 := fullStep_adds ⟨[], []⟩ r1 u v p1 y1 w1 hp1 hy1 hw1 ht1 rfl
  have hdup2 : hasPlayerEdge
      ([] ++ [(u, v, mkAttrs (r1.fee_cleaned.getD 0) y1 (strLower w1) (strLower p1))])
      u v (strLower p2) = false := by
    simp only [hasPlayerEdge, mkAttrs, List.nil_append, List.any_cons, List.any_nil,
      Bool.or_false]
    have hlook : List.lookup ("player")
        [("fee", AttrVal.num (r1.fee_cleaned.getD 0)), ("year", AttrVal.int y1),
         ("transfer_period", AttrVal.str (strLower w1)), ("player", AttrVal.str (strLower p1))]
        = some (AttrVal.str (strLower p1)) := by rfl
    rw [hlook]
    simp [hne]
  have h2 := fullStep_adds
      ⟨[] ++ [(u, v, mkAttrs (r1.fee_cleaned.getD 0) y1 (strLower w1) (strLower p1))],
        addClub [] (name_cleaner r1.club_name)⟩ r2 u v p2 y2 w2 hp2 hy2 hw2 ht2 hdup2
  have hrun : runFull ⟨[], []⟩ [r1, r2]
      = .ok ⟨([] ++ [(u, v, mkAttrs (r1.fee_cleaned.getD 0) y1 (strLower w1) (strLower p1))])
            ++ [(u, v, mkAttrs (r2.fee_cleaned.getD 0) y2 (strLower w2) (strLower p2))],
          addClub (addClub [] (name_cleaner r1.club_name)) (name_cleaner r2.club_name)⟩ := by
    rw [runFull_cons_ok _ _ _ _ h1, runFull_cons_ok _ _ _ _ h2]
    rfl
  refine ⟨_, load_full_of_runFull [r1, r2] currency denomination _ hrun, ?_, ?_⟩
  · simp
  · simp

/-- Witness for C7: two out-rows between alpha and gamma with equal fee 5
and players John and Jane yield two parallel edges. -/
theorem c7_witness :
    ∃ net, load_full_network_from_df [samplePlayerRow1, samplePlayerRow2]
        ("pounds") 1000000 = .ok net
      ∧ net.G.length = 2
      ∧ net.G.countP (fun e => decide (e.1 = "alpha") && decide (e.2.1 = "gamma")) = 2 :=
  c7_thm samplePlayerRow1 samplePlayerRow2 ("alpha") ("gamma") ("John") ("Jane")
    2000 2000 ("Summer") ("Summer") ("pounds") 1000000
    (by decide) (by decide) (by decide) (by decide) (by decide) (by decide)
    (by decide) (by decide) (by decide)

/-- Looking a key up after add-or-accumulate: the looked-up key gains the
added fee (starting from 0 when absent); other keys are untouched. -/
theorem lookupFee_addFee (g : List ((String × String) × ℚ)) (k : String × String) (f : ℚ)
    (k' : String × String) :
    lookupFee (addFee g k f) k' =
      if k' = k then some ((lookupFee g k).getD 0 + f) else lookupFee g k' := by
  induction g with
  | nil =>
    by_cases h : k' = k
    · subst h; simp [addFee, lookupFee]
    · simp [addFee, lookupFee, h, Ne.symm h]
  | cons q rest ih =>
    by_cases hq : q.1 = k
    · by_cases h : k' = k
      · subst h; simp [addFee, lookupFee, hq]
      · simp [addFee, lookupFee, hq, h, Ne.symm h]
    · by_cases h : k' = k
      · subst h
        simp [addFee, lookupFee, hq, Ne.symm hq, ih]
      · simp [addFee, lookupFee, hq, h, ih]

/-- When the key is absent, add-or-accumulate appends a fresh entry. -/
theorem addFee_of_forall_ne (g : List ((String × String) × ℚ)) (k : String × String) (f : ℚ)
    (h : ∀ q ∈ g, q.1 ≠ k) : addFee g k f = g ++ [(k, f)] := by
  induction g with
  | nil => simp [addFee]
  | cons q rest ih =>
    have hq : q.1 ≠ k := h q (List.mem_cons_self q rest)
    simp only [addFee, if_neg hq, List.cons_append, List.cons.injEq, true_and]
    exact ih (fun q' hq' => h q' (List.mem_cons_of_mem q hq'))

/-- The collapsing loop body is exactly add-or-accumulate on the edge key. -/
theorem colStep_eq_addFee (g : List ((String × String) × ℚ)) (e : FinEdge) :
    colStep g e = addFee g (edgeKey e) e.2.2 := by
  unfold colStep
  split_ifs with h
  · rfl
  · simp only [Bool.not_eq_true, List.any_eq_false, decide_eq_false_iff_not] at h
    rw [addFee_of_forall_ne g (edgeKey e) e.2.2 h]

/-- Fee totals per key along a cons. -/
theorem feeSum_cons (e : FinEdge) (es : List FinEdge) (k : String × String) :
    feeSum (e :: es) k = (if edgeKey e = k then e.2.2 else 0) + feeSum es k := by
  by_cases h : edgeKey e = k
  · simp [feeSum, List.filter_cons, h]
  · simp [feeSum, List.filter_cons, h]

/-- Folding the collapsing loop over any starting digraph: a key ends up
present exactly when it was present or occurs in the processed edges, and
its fee is the starting fee (0 when absent) plus the processed total. -/
theorem lookupFee_foldl (es : List FinEdge) :
    ∀ (g : List ((String × String) × ℚ)) (k : String × String),
      lookupFee (es.foldl colStep g) k =
        if (lookupFee g k).isSome = true ∨ es.any (fun e => decide (edgeKey e = k)) = true
        then some ((lookupFee g k).getD 0 + feeSum es k)
        else none := by
  induction es with
  | nil =>
    intro g k
    cases h : lookupFee g k with
    | none => simp [h, feeSum]
    | some q => simp [h, feeSum]
  | cons e es ih =>
    intro g k
    rw [List.foldl_cons, colStep_eq_addFee, ih (addFee g (edgeKey e) e.2.2) k,
      lookupFee_addFee, feeSum_cons]
    by_cases hk : k = edgeKey e
    · subst hk
      cases h : lookupFee g (edgeKey e) with
      | none => simp [h, add_assoc]
      | some q => simp [h, add_assoc]
    · have hk' : ¬ (edgeKey e = k) := fun hc => hk hc.symm
      rw [if_neg hk, List.any_cons,
        show decide (edgeKey e = k) = false from decide_eq_false hk', if_neg hk']
      simp only [Bool.false_or, zero_add]

/-- Add-or-accumulate never introduces a key beyond the old keys and the
added one. -/
theorem mem_addFee_keys (g : List ((String × String) × ℚ)) (k : String × String) (f : ℚ)
    (q : (String × String) × ℚ) (hq : q ∈ addFee g k f) :
    q.1 = k ∨ ∃ p ∈ g, q.1 = p.1 := by
  induction g with
  | nil =>
    simp [addFee] at hq
    exact Or.inl (by rw [hq])
  | cons p rest ih =>
    by_cases hp : p.1 = k
    · rw [show addFee (p :: rest) k f = (p.1, p.2 + f) :: rest by simp [addFee, hp]] at hq
      rcases List.mem_cons.mp hq with rfl | hmem
      · exact Or.inr ⟨p, List.mem_cons_self p rest, rfl⟩
      · exact Or.inr ⟨q, List.mem_cons_of_mem p hmem, rfl⟩
    · rw [show addFee (p :: rest) k f = p :: addFee rest k f by simp [addFee, hp]] at hq
      rcases List.mem_cons.mp hq with rfl | hmem
      · exact Or.inr ⟨q, List.mem_cons_self q rest, rfl⟩
      · rcases ih hmem with h | ⟨p', hp', h⟩
        · exact Or.inl h
        · exact Or.inr ⟨p', List.mem_cons_of_mem p hp', h⟩

/-- Add-or-accumulate preserves distinctness of the keys. -/
theorem addFee_pairwise (g : List ((String × String) × ℚ)) (k : String × String) (f : ℚ)
    (h : g.Pairwise (fun a b => a.1 ≠ b.1)) :
    (addFee g k f).Pairwise (fun a b => a.1 ≠ b.1) := by
  induction g with
  | nil => simp [addFee]
  | cons p rest ih =>
    obtain ⟨hhead, htail⟩ := List.pairwise_cons.mp h
    by_cases hp : p.1 = k
    · rw [show addFee (p :: rest) k f = (p.1, p.2 + f) :: rest by simp [addFee, hp]]
      exact List.pairwise_cons.mpr ⟨hhead, htail⟩
    · rw [show addFee (p :: rest) k f = p :: addFee rest k f by simp [addFee, hp]]
      refine List.pairwise_cons.mpr ⟨?_, ih htail⟩
      intro q hq
      rcases mem_addFee_keys rest k f q hq with hk | ⟨p', hp', hk⟩
      · rw [hk]; exact hp
      · rw [hk]; exact hhead p' hp'

/-- The collapsing fold keeps the keys of the simple digraph distinct. -/
theorem collapse_pairwise (es : List FinEdge) :
    ∀ g : List ((String × String) × ℚ), g.Pairwise (fun a b => a.1 ≠ b.1) →
      (es.foldl colStep g).Pairwise (fun a b => a.1 ≠ b.1) := by
  induction es with
  | nil => intro g h; exact h
  | cons e es ih =>
    intro g h
    rw [List.foldl_cons, colStep_eq_addFee]
    exact ih _ (addFee_pairwise g (edgeKey e) e.2.2 h)

/-- A list with pairwise-distinct keys holds each key at most once. -/
theorem countP_le_one_of_pairwise (g : List ((String × String) × ℚ)) (k : String × String)
    (h : g.Pairwise (fun a b => a.1 ≠ b.1)) :
    g.countP (fun p => decide (p.1 = k)) ≤ 1 := by
  induction g with
  | nil => simp
  | cons p rest ih =>
    obtain ⟨hhead, htail⟩ := List.pairwise_cons.mp h
    rw [List.countP_cons]
    by_cases hp : p.1 = k
    · have hzero : rest.countP (fun p => decide (p.1 = k)) = 0 := by
        rw [List.countP_eq_zero]
        intro q hq
        have : p.1 ≠ q.1 := hhead q hq
        simp only [decide_eq_true_eq]
        rw [← hp]
        exact fun hc => this hc.symm
      simp [hzero, hp]
    · simp [hp, ih htail]

/-- C8.  In the FINANCIAL_COLLAPSED builder, an ordered pair of clubs has
an edge exactly when the FINANCIAL multigraph has at least one edge for
that pair, its fee is the sum of the fees of all the parallel multigraph
edges for the pair, and the collapsed digraph holds at most one edge per
ordered pair. -/
theorem c8_thm (rs : List Row) (currency : String) (denomination : ℚ)
    (k : String × String) :
    (lookupFee (basic_financial_transfer_network_from_df rs currency denomination).G k =
      if ((financial_transfer_network_from_df rs currency denomination).G.any
          (fun e => decide (edgeKey e = k))) = true
      then some (feeSum (financial_transfer_network_from_df rs currency denomination).G k)
      else none)
    ∧ (basic_financial_transfer_network_from_df rs currency denomination).G.countP
        (fun p => decide (p.1 = k)) ≤ 1 := by
  constructor
  · show lookupFee (collapseEdges (financial_transfer_network_from_df rs currency denomination).G) k = _
    rw [collapseEdges, lookupFee_foldl]
    simp only [lookupFee, Option.isSome_none, Bool.false_eq_true, false_or,
      Option.getD_none, zero_add]
  · exact countP_le_one_of_pairwise _ k
      (collapse_pairwise (financial_transfer_network_from_df rs currency denomination).G
        [] List.Pairwise.nil)
